import Mathlib

/-!
Shallow embedding of the order-processing service
(`src/balance_service.py`, `src/order_service.py`).

Modelling conventions:
- Python `float` money amounts become `ℚ` (the spec treats amounts as exact
  decimal values; every concrete amount in the spec is decimal-exact).
- The module-level dict `_customer_balances : Dict[int, float]` becomes an
  association list `List (Int × ℚ)`; `dict.get(k, 0.0)` is `lookup` with
  default `0`, and `dict[k] = v` replaces the binding for `k` (or appends).
- `random.random() < 0.1` (the transient-failure coin of `deduct_balance`)
  is an explicit `Bool` parameter; for a run of the retry loop the successive
  coins are an oracle `Nat → Bool` indexed by attempt number.
- `raise ConnectionError(msg)` becomes `Except.error msg`; the `try/except
  ConnectionError` in `_process_single_order` matches on it.
- `time.sleep` has no state effect and is dropped, except in the concurrency
  model of `_update_daily_stats`, where it marks the suspension point between
  the read micro-step and the write micro-step.
-/

/-- Embeds `BalanceResponse` (fields in order: success, customer_id,
new_balance, error). -/
structure BalanceResponse where
  success : Bool
  customer_id : Int
  new_balance : ℚ
  error : Option String
  deriving DecidableEq, Repr

/-- The seeded `_customer_balances` dict. -/
def initialBalances : List (Int × ℚ) :=
  [(1, 500), (2, 1000), (3, 250), (4, 750), (5, 100)]

/-- Embeds `dict.get(customer_id, 0.0)` on the balances dict. -/
def dictGet (s : List (Int × ℚ)) (k : Int) : ℚ :=
  (s.lookup k).getD 0

/-- Embeds `dict[k] = v`: replace the binding for `k`, or append it. -/
def dictSet : List (Int × ℚ) → Int → ℚ → List (Int × ℚ)
  | [], k, v => [(k, v)]
  | (k', v') :: rest, k, v =>
    if k' = k then (k, v) :: rest else (k', v') :: dictSet rest k v

/-- Embeds `get_balance`. -/
def get_balance (s : List (Int × ℚ)) (customer_id : Int) : ℚ :=
  dictGet s customer_id

/-- Embeds `deduct_balance`. `transientFail` is the outcome of the
`random.random() < 0.1` coin; when it is true the function raises
`ConnectionError` before the balances dict is read or written, so the
state component returned alongside is the unchanged `s`. Otherwise the
balance is read, compared, and conditionally written, exactly as in the
source. Returns (raised-or-response, balances-after). -/
def deduct_balance (transientFail : Bool) (s : List (Int × ℚ))
    (customer_id : Int) (amount : ℚ) :
    Except String BalanceResponse × List (Int × ℚ) :=
  if transientFail then
    (Except.error ("Balance service temporarily unavailable"), s)
  else
    let current_balance := dictGet s customer_id
    if current_balance < amount then
      (Except.ok ⟨false, customer_id, current_balance,
        some ("Insufficient balance")⟩, s)
    else
      let new_balance := current_balance - amount
      (Except.ok ⟨true, customer_id, new_balance, none⟩,
        dictSet s customer_id new_balance)

/-- Embeds `reset_balances`. -/
def reset_balances : List (Int × ℚ) := initialBalances

/-- Embeds the `_daily_stats` dict (fields: total_revenue, order_count). -/
structure DailyStats where
  total_revenue : ℚ
  order_count : Nat
  deriving DecidableEq, Repr

/-- Embeds `_update_daily_stats` as the sequential (single-caller)
function: read both fields, then write both fields. -/
def update_daily_stats (stats : DailyStats) (amount : ℚ) : DailyStats :=
  let current_revenue := stats.total_revenue
  let current_count := stats.order_count
  ⟨current_revenue + amount, current_count + 1⟩

/-- Embeds `OrderRequest` (fields: id, customer_id, amount, priority). -/
structure OrderRequest where
  id : Int
  customer_id : Int
  amount : ℚ
  priority : Bool
  deriving DecidableEq, Repr

/-- Embeds `OrderResponse` (fields: id, status, priority, message,
new_balance). -/
structure OrderResponse where
  id : Int
  status : String
  priority : Bool
  message : Option String
  new_balance : Option ℚ
  deriving DecidableEq, Repr

/-- The combined mutable module state of the service: the balances dict
and the stats dict. -/
structure ServiceState where
  balances : List (Int × ℚ)
  stats : DailyStats
  deriving DecidableEq, Repr

/-- Python prints `None` for an absent optional in an f-string. -/
def pyOptStr : Option String → String
  | none => "None"
  | some e => e

/-- The f-string `f"Balance service unavailable after {max_retries}
retries: {last_error}"`. -/
def exhaustMessage (max_retries : Nat) (last_error : Option String) : String :=
  "Balance service unavailable after " ++ toString max_retries ++
    " retries: " ++ pyOptStr last_error

/-- The f-string `f"Insufficient balance: {current_balance} <
{order.amount}"`. -/
def insufficientMessage (current_balance amount : ℚ) : String :=
  "Insufficient balance: " ++ toString current_balance ++ " < " ++
    toString amount

/-- Embeds the `for attempt in range(max_retries)` retry loop of
`_process_single_order`. `fuel` is the number of remaining iterations
(initially `max_retries`), `attempt` the current attempt index, and the
oracle gives each attempt's transient-failure coin. The returned `Nat`
counts how many `deduct_balance` calls were made inside the loop
(instrumentation only: it is the number of executed iterations). -/
def deductLoop (oracle : Nat → Bool) (order : OrderRequest)
    (max_retries : Nat) (attempt : Nat) (fuel : Nat) (s : ServiceState)
    (last_error : Option String) : OrderResponse × ServiceState × Nat :=
  match fuel with
  | 0 =>
    (⟨order.id, "error", order.priority,
      some (exhaustMessage max_retries last_error), none⟩, s, 0)
  | Nat.succ fuel' =>
    match deduct_balance (oracle attempt) s.balances
        order.customer_id order.amount with
    | (Except.error e, _) =>
      let r := deductLoop oracle order max_retries (attempt + 1) fuel' s
        (some e)
      (r.1, r.2.1, r.2.2 + 1)
    | (Except.ok result, balances') =>
      if result.success then
        (⟨order.id, "ok", order.priority, none, some result.new_balance⟩,
          ⟨balances', update_daily_stats s.stats order.amount⟩, 1)
      else
        (⟨order.id, "error", order.priority, result.error, none⟩,
          ⟨balances', s.stats⟩, 1)

/-- Embeds `_process_single_order` (validation, advisory balance
pre-check, then the retry loop). The `Nat` in the result counts the
`deduct_balance` calls made. -/
def _process_single_order (oracle : Nat → Bool) (order : OrderRequest)
    (max_retries : Nat) (s : ServiceState) :
    OrderResponse × ServiceState × Nat :=
  if order.amount ≤ 0 then
    (⟨order.id, "error", order.priority, some ("Invalid order amount"),
      none⟩, s, 0)
  else
    let current_balance := get_balance s.balances order.customer_id
    if current_balance < order.amount then
      (⟨order.id, "error", order.priority,
        some (insufficientMessage current_balance order.amount), none⟩, s, 0)
    else
      deductLoop oracle order max_retries 0 max_retries s none

/-- Embeds `sorted(results, key=lambda x: x.priority)`. Python `sorted`
is stable and sorts ascending; over the two-valued `bool` key
(`False < True`) a stable ascending sort is exactly: the elements whose
key is `false`, in input order, followed by those whose key is `true`,
in input order. -/
def sortedByPriorityKey (results : List OrderResponse) :
    List OrderResponse :=
  results.filter (fun x => x.priority = false) ++
    results.filter (fun x => x.priority = true)

/-- Embeds the loop body of `create_orders_batch`: process each order in
input sequence, threading the service state; order number `i` uses
transient oracle `oracles i`. -/
def processAll (oracles : Nat → Nat → Bool) (max_retries : Nat) :
    List OrderRequest → Nat → ServiceState →
    List OrderResponse × ServiceState
  | [], _, s => ([], s)
  | o :: rest, i, s =>
    let r := _process_single_order (oracles i) o max_retries s
    let rec' := processAll oracles max_retries rest (i + 1) r.2.1
    (r.1 :: rec'.1, rec'.2)

/-- Embeds `create_orders_batch`: process all orders sequentially, then
return `sorted(results, key=lambda x: x.priority)`. -/
def create_orders_batch (oracles : Nat → Nat → Bool) (max_retries : Nat)
    (orders : List OrderRequest) (s : ServiceState) :
    List OrderResponse × ServiceState :=
  let r := processAll oracles max_retries orders 0 s
  (sortedByPriorityKey r.1, r.2)

/-!
Interleaving model of `_update_daily_stats` for the concurrency claims.

The body of `_update_daily_stats` is
    current_revenue = _daily_stats["total_revenue"]
    current_count   = _daily_stats["order_count"]
    time.sleep(0.001)
    _daily_stats["total_revenue"] = current_revenue + amount
    _daily_stats["order_count"]   = current_count + 1
with no lock. We model each concurrent call as a thread that performs two
micro-steps on the shared `DailyStats`: a read step (the two loads before
the sleep, which is the suspension point) and a write step (the two stores
after it). Grouping the two loads into one atomic micro-step, and likewise
the two stores, is conservative: any lost update exhibited under this
coarse interleaving also occurs in the finer-grained original. -/

/-- One concurrent `_update_daily_stats(amount)` caller: its amount, the
snapshot its read step took (if taken), and whether its write step ran. -/
structure RaceThread where
  amount : ℚ
  snap : Option DailyStats
  hasWritten : Bool
  deriving DecidableEq, Repr

/-- Shared stats plus the per-thread local state. -/
structure RaceState where
  stats : DailyStats
  threads : List RaceThread
  deriving DecidableEq, Repr

/-- Run one micro-step of thread `tid`: its read step if it has not read
yet, otherwise its write step if it has not written yet, otherwise
nothing (the call already returned). -/
def raceStep (st : RaceState) (tid : Nat) : RaceState :=
  match st.threads.get? tid with
  | none => st
  | some t =>
    match t.snap with
    | none =>
      ⟨st.stats, st.threads.set tid ⟨t.amount, some st.stats, t.hasWritten⟩⟩
    | some snap =>
      if t.hasWritten then st
      else
        ⟨⟨snap.total_revenue + t.amount, snap.order_count + 1⟩,
          st.threads.set tid ⟨t.amount, some snap, true⟩⟩

/-- Run a schedule (a list of thread ids, each occurrence executing that
thread's next micro-step). -/
def raceRun (schedule : List Nat) (st : RaceState) : RaceState :=
  schedule.foldl raceStep st

/-- A fresh thread about to call `_update_daily_stats amount`. -/
def freshThread (amount : ℚ) : RaceThread := ⟨amount, none, false⟩

/-- A schedule completes when every thread has performed its write. -/
def allDone (st : RaceState) : Bool :=
  st.threads.all (fun t => t.hasWritten)

/-! ### Helper lemmas -/

/-- `List.lookup` on a cons cell, with the `BEq` test rewritten to a
propositional `if`. -/
theorem dictGet_cons (c k : Int) (v : ℚ) (rest : List (Int × ℚ)) :
    dictGet ((k, v) :: rest) c = if c = k then v else dictGet rest c := by
  by_cases h : c = k
  · simp [dictGet, List.lookup, h]
  · unfold dictGet
    rw [List.lookup, beq_false_of_ne h]
    simp [h]

/-- Updating key `k` in the dict makes `k` read back the new value and
leaves every other key's read unchanged. -/
theorem dictGet_dictSet (s : List (Int × ℚ)) (k : Int) (v : ℚ) (c : Int) :
    dictGet (dictSet s k v) c = if c = k then v else dictGet s c := by
  induction s with
  | nil =>
    show dictGet [(k, v)] c = _
    rw [dictGet_cons]
  | cons p rest ih =>
    obtain ⟨k', v'⟩ := p
    by_cases hk : k' = k
    · subst hk
      by_cases h : c = k' <;> simp [dictSet, dictGet_cons, h]
    · have hsplit : dictSet ((k', v') :: rest) k v =
          (k', v') :: dictSet rest k v := by simp [dictSet, hk]
      rw [hsplit, dictGet_cons, dictGet_cons, ih]
      by_cases h : c = k'
      · subst h
        simp [fun hh : c = k => hk hh]
      · simp [h]

/-- Unfolds one transient-failure iteration of the retry loop: the raised
`ConnectionError` is caught, `last_error` is updated, and the loop
recurses on the same service state. -/
theorem deductLoop_transient (oracle : Nat → Bool) (order : OrderRequest)
    (mr attempt fuel : Nat) (s : ServiceState) (le : Option String)
    (h : oracle attempt = true) :
    deductLoop oracle order mr attempt (fuel + 1) s le =
      (let r := deductLoop oracle order mr (attempt + 1) fuel s
        (some ("Balance service temporarily unavailable"))
      (r.1, r.2.1, r.2.2 + 1)) := by
  simp [deductLoop, deduct_balance, h]

/-- Unfolds one non-transient iteration of the retry loop. -/
theorem deductLoop_live (oracle : Nat → Bool) (order : OrderRequest)
    (mr attempt fuel : Nat) (s : ServiceState) (le : Option String)
    (h : oracle attempt = false) :
    deductLoop oracle order mr attempt (fuel + 1) s le =
      (if dictGet s.balances order.customer_id < order.amount then
        (⟨order.id, "error", order.priority,
          some ("Insufficient balance"), none⟩,
          ⟨s.balances, s.stats⟩, 1)
      else
        (⟨order.id, "ok", order.priority, none,
          some (dictGet s.balances order.customer_id - order.amount)⟩,
          ⟨dictSet s.balances order.customer_id
            (dictGet s.balances order.customer_id - order.amount),
            update_daily_stats s.stats order.amount⟩, 1)) := by
  by_cases hlt : dictGet s.balances order.customer_id < order.amount <;>
    simp [deductLoop, deduct_balance, h, hlt]

/-- Case analysis on the retry loop: either it returns an `ok` outcome,
having deducted the order amount from the (unchanged-by-retries) balances
and bumped the stats exactly once, or it returns an `error` outcome with
the service state exactly as it entered the loop. -/
theorem deductLoop_spec (oracle : Nat → Bool) (order : OrderRequest)
    (mr attempt fuel : Nat) (s : ServiceState) (le : Option String) :
    ((deductLoop oracle order mr attempt fuel s le).1.status = "ok" ∧
      (deductLoop oracle order mr attempt fuel s le).2.1.balances =
        dictSet s.balances order.customer_id
          (dictGet s.balances order.customer_id - order.amount) ∧
      (deductLoop oracle order mr attempt fuel s le).2.1.stats =
        update_daily_stats s.stats order.amount ∧
      ¬ dictGet s.balances order.customer_id < order.amount) ∨
    ((deductLoop oracle order mr attempt fuel s le).1.status = "error" ∧
      (deductLoop oracle order mr attempt fuel s le).2.1 = s) := by
  induction fuel generalizing attempt le with
  | zero => right; simp [deductLoop]
  | succ n ih =>
    by_cases h : oracle attempt = true
    · rw [deductLoop_transient oracle order mr attempt n s le h]
      exact ih (attempt + 1)
        (some ("Balance service temporarily unavailable"))
    · rw [deductLoop_live oracle order mr attempt n s le
        (Bool.eq_false_iff.mpr h)]
      by_cases hlt : dictGet s.balances order.customer_id < order.amount
      · right; simp [hlt]
      · left; simp [hlt]

/-- The retry loop echoes the order's id and priority in its outcome. -/
theorem deductLoop_echo (oracle : Nat → Bool) (order : OrderRequest)
    (mr attempt fuel : Nat) (s : ServiceState) (le : Option String) :
    (deductLoop oracle order mr attempt fuel s le).1.id = order.id ∧
    (deductLoop oracle order mr attempt fuel s le).1.priority =
      order.priority := by
  induction fuel generalizing attempt le with
  | zero => simp [deductLoop]
  | succ n ih =>
    by_cases h : oracle attempt = true
    · rw [deductLoop_transient oracle order mr attempt n s le h]
      exact ih (attempt + 1)
        (some ("Balance service temporarily unavailable"))
    · rw [deductLoop_live oracle order mr attempt n s le
        (Bool.eq_false_iff.mpr h)]
      by_cases hlt : dictGet s.balances order.customer_id < order.amount <;>
        simp [hlt]

/-- The retry loop makes at most `fuel` calls to `deduct_balance`. -/
theorem deductLoop_calls_le (oracle : Nat → Bool) (order : OrderRequest)
    (mr attempt fuel : Nat) (s : ServiceState) (le : Option String) :
    (deductLoop oracle order mr attempt fuel s le).2.2 ≤ fuel := by
  induction fuel generalizing attempt le with
  | zero => simp [deductLoop]
  | succ n ih =>
    by_cases h : oracle attempt = true
    · rw [deductLoop_transient oracle order mr attempt n s le h]
      exact Nat.succ_le_succ (ih (attempt + 1)
        (some ("Balance service temporarily unavailable")))
    · rw [deductLoop_live oracle order mr attempt n s le
        (Bool.eq_false_iff.mpr h)]
      by_cases hlt : dictGet s.balances order.customer_id < order.amount <;>
        simp [hlt]

/-- Every `deduct_balance` call of the loop except possibly the last one
had a transient failure: the loop retries only on `ConnectionError`. -/
theorem deductLoop_retries_only_transient (oracle : Nat → Bool)
    (order : OrderRequest) (mr attempt fuel : Nat) (s : ServiceState)
    (le : Option String) (j : Nat)
    (hj : j + 1 < (deductLoop oracle order mr attempt fuel s le).2.2) :
    oracle (attempt + j) = true := by
  induction fuel generalizing attempt le j with
  | zero => simp [deductLoop] at hj
  | succ n ih =>
    by_cases h : oracle attempt = true
    · rw [deductLoop_transient oracle order mr attempt n s le h] at hj
      simp only [] at hj
      match j with
      | 0 => simpa using h
      | Nat.succ k =>
        have hk : k + 1 <
            (deductLoop oracle order mr (attempt + 1) n s
              (some ("Balance service temporarily unavailable"))).2.2 := by
          omega
        have := ih (attempt + 1)
          (some ("Balance service temporarily unavailable")) k hk
        simpa [Nat.add_comm, Nat.add_assoc, Nat.add_left_comm] using this
    · rw [deductLoop_live oracle order mr attempt n s le
        (Bool.eq_false_iff.mpr h)] at hj
      by_cases hlt : dictGet s.balances order.customer_id < order.amount <;>
        simp [hlt] at hj

/-- When every attempt the loop can make fails transiently, the loop
exhausts its fuel and returns the retries-exhausted error outcome, whose
message is built from `max_retries` and the last `ConnectionError`
message, and it leaves the service state unchanged while making exactly
`fuel` calls. -/
theorem deductLoop_exhaust (oracle : Nat → Bool) (order : OrderRequest)
    (mr attempt fuel : Nat) (s : ServiceState) (le : Option String)
    (hall : ∀ j, j < fuel → oracle (attempt + j) = true) (h1 : 1 ≤ fuel) :
    deductLoop oracle order mr attempt fuel s le =
      (⟨order.id, "error", order.priority,
        some (exhaustMessage mr
          (some ("Balance service temporarily unavailable"))), none⟩,
        s, fuel) := by
  induction fuel generalizing attempt le with
  | zero => omega
  | succ n ih =>
    have h0 : oracle attempt = true := by simpa using hall 0 (by omega)
    rw [deductLoop_transient oracle order mr attempt n s le h0]
    match n with
    | 0 => simp [deductLoop]
    | Nat.succ m =>
      have hall' : ∀ j, j < m + 1 → oracle (attempt + 1 + j) = true := by
        intro j hjm
        have := hall (j + 1) (by omega)
        simpa [Nat.add_comm, Nat.add_assoc, Nat.add_left_comm] using this
      rw [ih (attempt + 1)
        (some ("Balance service temporarily unavailable")) hall' (by omega)]

/-- All balances in the dict read back non-negative (unknown ids read 0). -/
def balancesNonneg (s : List (Int × ℚ)) : Prop :=
  ∀ c, 0 ≤ get_balance s c

/-- A dict whose stored values are all non-negative reads back
non-negative everywhere. -/
theorem balancesNonneg_of_values :
    ∀ l : List (Int × ℚ), (∀ p ∈ l, 0 ≤ p.2) → balancesNonneg l := by
  intro l
  induction l with
  | nil =>
    intro _ c
    simp [get_balance, dictGet, List.lookup]
  | cons p rest ih =>
    intro h c
    obtain ⟨k, v⟩ := p
    show 0 ≤ dictGet ((k, v) :: rest) c
    rw [dictGet_cons]
    by_cases hc : c = k
    · simpa [hc] using h (k, v) (List.mem_cons_self _ _)
    · simpa [hc] using
        ih (fun q hq => h q (List.mem_cons_of_mem _ hq)) c

/-! ### Claim theorems -/

/-- C4: a non-transient `deduct_balance` call reads the current balance
(0 for an unknown id) and compares it with the amount: below the amount
it returns success=false with the insufficient-funds error and leaves the
dict untouched, otherwise it stores balance - amount and returns
success=true carrying that new balance; and concretely, from the seeded
balance 500 for customer 1, an order of amount 50 that returns status ok
leaves the queried balance at exactly 450. -/
theorem deductBalanceCheckAndDeduct :
    (∀ (s : List (Int × ℚ)) (cid : Int) (a : ℚ),
      (get_balance s cid < a →
        deduct_balance false s cid a =
          (Except.ok ⟨false, cid, get_balance s cid,
            some ("Insufficient balance")⟩, s)) ∧
      (¬ get_balance s cid < a →
        deduct_balance false s cid a =
          (Except.ok ⟨true, cid, get_balance s cid - a, none⟩,
            dictSet s cid (get_balance s cid - a)) ∧
        get_balance (deduct_balance false s cid a).2 cid =
          get_balance s cid - a)) ∧
    ((_process_single_order (fun _ => false) ⟨1, 1, 50, false⟩ 3
        ⟨initialBalances, ⟨0, 0⟩⟩).1.status = "ok" ∧
      get_balance (_process_single_order (fun _ => false) ⟨1, 1, 50, false⟩ 3
        ⟨initialBalances, ⟨0, 0⟩⟩).2.1.balances 1 = 450) := by
  constructor
  · intro s cid a
    constructor
    · intro hlt
      have hlt' : dictGet s cid < a := hlt
      simp [deduct_balance, get_balance, hlt']
    · intro hge
      have hge' : ¬ dictGet s cid < a := hge
      constructor
      · simp [deduct_balance, get_balance, hge']
      · show get_balance (deduct_balance false s cid a).2 cid = _
        simp only [deduct_balance, Bool.false_eq_true, if_false, hge',
          if_neg, not_false_iff]
        show dictGet (dictSet s cid (dictGet s cid - a)) cid = _
        rw [dictGet_dictSet]
        simp [get_balance]
  · constructor <;>
      norm_num [_process_single_order, deductLoop, deduct_balance,
        get_balance, dictGet, dictSet, initialBalances, List.lookup]

/-- Witness for C4: customer 5 holds 100, so a 200 deduction is rejected
with the dict unchanged, and a 50 deduction from customer 1 stores 450. -/
theorem deductBalanceCheckAndDeduct_witness :
    deduct_balance false initialBalances 5 200 =
      (Except.ok ⟨false, 5, 100, some ("Insufficient balance")⟩,
        initialBalances) ∧
    get_balance (deduct_balance false initialBalances 1 50).2 1 = 450 := by
  have h5 := (deductBalanceCheckAndDeduct.1 initialBalances 5 200).1
  have h1 := (deductBalanceCheckAndDeduct.1 initialBalances 1 50).2
  have hb5 : get_balance initialBalances 5 = 100 := by
    simp [get_balance, initialBalances, dictGet_cons]
  have hb1 : get_balance initialBalances 1 = 500 := by
    simp [get_balance, initialBalances, dictGet_cons]
  rw [hb5] at h5
  rw [hb1] at h1
  refine ⟨by simpa using h5 (by norm_num), ?_⟩
  have := (h1 (by norm_num)).2
  rw [this]
  norm_num

/-- C5: a transiently failing `deduct_balance` call raises before any
account state is read or written: the raised error is returned and every
customer's balance afterwards equals its value before the call. -/
theorem transientFailureLeavesStateUnchanged (s : List (Int × ℚ))
    (cid : Int) (a : ℚ) :
    (deduct_balance true s cid a).1 =
      Except.error ("Balance service temporarily unavailable") ∧
    (deduct_balance true s cid a).2 = s ∧
    ∀ c, get_balance (deduct_balance true s cid a).2 c =
      get_balance s c := by
  refine ⟨rfl, rfl, fun c => rfl⟩

/-- C7: an order with amount ≤ 0 is rejected with the exact message
`Invalid order amount`; the service state is returned unchanged and zero
`deduct_balance` calls are made. -/
theorem invalidAmountShortCircuit (oracle : Nat → Bool)
    (order : OrderRequest) (mr : Nat) (s : ServiceState)
    (h : order.amount ≤ 0) :
    _process_single_order oracle order mr s =
      (⟨order.id, "error", order.priority, some ("Invalid order amount"),
        none⟩, s, 0) := by
  simp [_process_single_order, h]

/-- Witness for C7: the amount-0 order of the spec's validation
short-circuit property. -/
theorem invalidAmountShortCircuit_witness :
    _process_single_order (fun _ => false) ⟨1, 1, 0, false⟩ 3
        ⟨initialBalances, ⟨0, 0⟩⟩ =
      (⟨1, "error", false, some ("Invalid order amount"), none⟩,
        ⟨initialBalances, ⟨0, 0⟩⟩, 0) :=
  invalidAmountShortCircuit (fun _ => false) ⟨1, 1, 0, false⟩ 3
    ⟨initialBalances, ⟨0, 0⟩⟩ (by norm_num)

/-- C10: the Ledger never validates the sign of the amount: a
non-transient `deduct_balance` with a negative amount against a
non-negative balance succeeds and strictly increases the stored balance
by the negated amount. -/
theorem ledgerAcceptsNegativeAmounts (s : List (Int × ℚ)) (cid : Int)
    (a : ℚ) (hb : 0 ≤ get_balance s cid) (ha : a < 0) :
    (deduct_balance false s cid a).1 =
      Except.ok ⟨true, cid, get_balance s cid - a, none⟩ ∧
    get_balance (deduct_balance false s cid a).2 cid =
      get_balance s cid + (-a) ∧
    get_balance s cid < get_balance (deduct_balance false s cid a).2 cid := by
  have hge : ¬ get_balance s cid < a := by linarith
  have hmain := (deductBalanceCheckAndDeduct.1 s cid a).2 hge
  refine ⟨?_, ?_, ?_⟩
  · rw [hmain.1]
  · rw [hmain.2]; ring
  · rw [hmain.2]; linarith

/-- Witness for C10: deducting -5 from customer 1's seeded 500 stores
505. -/
theorem ledgerAcceptsNegativeAmounts_witness :
    (deduct_balance false initialBalances 1 (-5)).1 =
      Except.ok ⟨true, 1, 505, none⟩ ∧
    get_balance (deduct_balance false initialBalances 1 (-5)).2 1 = 505 := by
  have hb1 : get_balance initialBalances 1 = 500 := by
    simp [get_balance, initialBalances, dictGet_cons]
  have h := ledgerAcceptsNegativeAmounts initialBalances 1 (-5)
    (by rw [hb1]; norm_num) (by norm_num)
  rw [hb1] at h
  refine ⟨?_, ?_⟩
  · rw [h.1]; norm_num
  · rw [h.2.1]; norm_num

/-- C3: per order, one terminal outcome is produced (the processor is a
total function into outcome × state); when the outcome's status is ok the
customer's balance has been deducted by the order amount exactly once
(other customers untouched) and the stats pair incremented exactly once,
and otherwise balances and stats are exactly as before — regardless of
the transient-failure outcomes of the successive attempts. -/
theorem processOrderDeductsExactlyOnce (oracle : Nat → Bool)
    (order : OrderRequest) (mr : Nat) (s : ServiceState) :
    ((_process_single_order oracle order mr s).1.status = "ok" →
      get_balance (_process_single_order oracle order mr s).2.1.balances
          order.customer_id =
        get_balance s.balances order.customer_id - order.amount ∧
      (∀ c, c ≠ order.customer_id →
        get_balance (_process_single_order oracle order mr s).2.1.balances c =
          get_balance s.balances c) ∧
      (_process_single_order oracle order mr s).2.1.stats.total_revenue =
        s.stats.total_revenue + order.amount ∧
      (_process_single_order oracle order mr s).2.1.stats.order_count =
        s.stats.order_count + 1) ∧
    ((_process_single_order oracle order mr s).1.status ≠ "ok" →
      (_process_single_order oracle order mr s).2.1 = s) := by
  by_cases h0 : order.amount ≤ 0
  · refine ⟨fun hok => ?_, fun _ => ?_⟩
    · simp [_process_single_order, h0] at hok
    · simp [_process_single_order, h0]
  · by_cases h1 : get_balance s.balances order.customer_id < order.amount
    · refine ⟨fun hok => ?_, fun _ => ?_⟩
      · simp [_process_single_order, h0, h1] at hok
      · simp [_process_single_order, h0, h1]
    · have hunfold : _process_single_order oracle order mr s =
          deductLoop oracle order mr 0 mr s none := by
        simp [_process_single_order, h0, h1]
      rcases deductLoop_spec oracle order mr 0 mr s none with
        ⟨hst, hbal, hstats, _⟩ | ⟨hst, hsame⟩
      · refine ⟨fun _ => ?_, fun hne => ?_⟩
        · rw [hunfold]
          refine ⟨?_, ?_, ?_, ?_⟩
          · rw [hbal]
            show dictGet (dictSet s.balances order.customer_id
              (dictGet s.balances order.customer_id - order.amount))
              order.customer_id = _
            rw [dictGet_dictSet]
            simp [get_balance]
          · intro c hc
            rw [hbal]
            show dictGet (dictSet s.balances order.customer_id
              (dictGet s.balances order.customer_id - order.amount)) c = _
            rw [dictGet_dictSet]
            simp [get_balance, hc]
          · rw [hstats]; rfl
          · rw [hstats]; rfl
        · rw [hunfold] at hne
          exact absurd hst hne
      · refine ⟨fun hok => ?_, fun _ => ?_⟩
        · rw [hunfold] at hok
          rw [hst] at hok
          exact absurd hok (by decide)
        · rw [hunfold]
          exact hsame

/-- Witness for C3: a run with one transient failure followed by a
successful attempt deducts 50 from customer 1 exactly once and bumps the
stats exactly once. -/
theorem processOrderDeductsExactlyOnce_witness :
    get_balance (_process_single_order (fun n => decide (n = 0))
        ⟨1, 1, 50, false⟩ 3 ⟨initialBalances, ⟨0, 0⟩⟩).2.1.balances 1 = 450 ∧
    (_process_single_order (fun n => decide (n = 0))
        ⟨1, 1, 50, false⟩ 3 ⟨initialBalances, ⟨0, 0⟩⟩).2.1.stats.order_count
      = 1 := by
  have h := (processOrderDeductsExactlyOnce (fun n => decide (n = 0))
    ⟨1, 1, 50, false⟩ 3 ⟨initialBalances, ⟨0, 0⟩⟩).1 (by
      rw [show _process_single_order (fun n => decide (n = 0))
          ⟨1, 1, 50, false⟩ 3 ⟨initialBalances, ⟨0, 0⟩⟩ =
          deductLoop (fun n => decide (n = 0)) ⟨1, 1, 50, false⟩ 3 0 3
            ⟨initialBalances, ⟨0, 0⟩⟩ none from by
        norm_num [_process_single_order, get_balance, initialBalances,
          dictGet_cons]]
      rw [deductLoop_transient _ _ _ _ _ _ _ (by decide)]
      rw [deductLoop_live _ _ _ _ _ _ _ (by decide)]
      norm_num [get_balance, initialBalances, dictGet_cons])
  have hb1 : get_balance initialBalances 1 = 500 := by
    simp [get_balance, initialBalances, dictGet_cons]
  refine ⟨?_, ?_⟩
  · rw [h.1]
    show get_balance initialBalances 1 - 50 = 450
    rw [hb1]; norm_num
  · rw [h.2.2.2]

/-- C6: the processor calls `deduct_balance` at most `max_retries` times;
every call except possibly the last failed transiently (it retries only
on `ConnectionError`); and when every allowed attempt fails transiently
the outcome is an error whose message names the number of attempts and
the last transient error text. -/
theorem retryPolicyBounded (oracle : Nat → Bool) (order : OrderRequest)
    (mr : Nat) (s : ServiceState) :
    (_process_single_order oracle order mr s).2.2 ≤ mr ∧
    (∀ j, j + 1 < (_process_single_order oracle order mr s).2.2 →
      oracle j = true) ∧
    ((1 ≤ mr ∧ 0 < order.amount ∧
        ¬ get_balance s.balances order.customer_id < order.amount ∧
        (∀ j, j < mr → oracle j = true)) →
      (_process_single_order oracle order mr s).1 =
        ⟨order.id, "error", order.priority,
          some ("Balance service unavailable after " ++ toString mr ++
            " retries: " ++ "Balance service temporarily unavailable"),
          none⟩) := by
  by_cases h0 : order.amount ≤ 0
  · refine ⟨?_, ?_, ?_⟩
    · simp [_process_single_order, h0]
    · simp [_process_single_order, h0]
    · rintro ⟨-, ha, -, -⟩
      exact absurd h0 (not_le.mpr ha)
  · by_cases h1 : get_balance s.balances order.customer_id < order.amount
    · refine ⟨?_, ?_, ?_⟩
      · simp [_process_single_order, h0, h1]
      · simp [_process_single_order, h0, h1]
      · rintro ⟨-, -, hge, -⟩
        exact absurd h1 hge
    · have hunfold : _process_single_order oracle order mr s =
          deductLoop oracle order mr 0 mr s none := by
        simp [_process_single_order, h0, h1]
      refine ⟨?_, ?_, ?_⟩
      · rw [hunfold]
        exact deductLoop_calls_le oracle order mr 0 mr s none
      · intro j hj
        rw [hunfold] at hj
        simpa using
          deductLoop_retries_only_transient oracle order mr 0 mr s none j hj
      · rintro ⟨hmr, -, -, hall⟩
        rw [hunfold]
        rw [deductLoop_exhaust oracle order mr 0 mr s none
          (fun j hj => by simpa using hall j hj) hmr]
        simp [exhaustMessage, pyOptStr]

/-- Witness for C6: with three transient failures and the default three
retries, the outcome message for a valid order names the three attempts
and the `ConnectionError` text. -/
theorem retryPolicyBounded_witness :
    (_process_single_order (fun _ => true) ⟨1, 1, 50, false⟩ 3
        ⟨initialBalances, ⟨0, 0⟩⟩).1 =
      ⟨1, "error", false,
        some ("Balance service unavailable after 3 retries: " ++
          "Balance service temporarily unavailable"), none⟩ := by
  have h := (retryPolicyBounded (fun _ => true) ⟨1, 1, 50, false⟩ 3
    ⟨initialBalances, ⟨0, 0⟩⟩).2.2 (by
      refine ⟨by norm_num, by norm_num, ?_, fun j _ => rfl⟩
      show ¬ get_balance initialBalances 1 < 50
      simp [get_balance, initialBalances, dictGet_cons]
      norm_num)
  rw [h]
  rfl

/-- C9: for every order, retry count, transient-failure sequence and
state, the processor returns exactly one well-formed outcome — its status
is ok or error and it echoes the order's id and priority — rather than
propagating any failure. -/
theorem processorAlwaysReturnsOutcome (oracle : Nat → Bool)
    (order : OrderRequest) (mr : Nat) (s : ServiceState) :
    ((_process_single_order oracle order mr s).1.status = "ok" ∨
      (_process_single_order oracle order mr s).1.status = "error") ∧
    (_process_single_order oracle order mr s).1.id = order.id ∧
    (_process_single_order oracle order mr s).1.priority =
      order.priority := by
  by_cases h0 : order.amount ≤ 0
  · simp [_process_single_order, h0]
  · by_cases h1 : get_balance s.balances order.customer_id < order.amount
    · simp [_process_single_order, h0, h1]
    · have hunfold : _process_single_order oracle order mr s =
          deductLoop oracle order mr 0 mr s none := by
        simp [_process_single_order, h0, h1]
      rw [hunfold]
      refine ⟨?_, (deductLoop_echo oracle order mr 0 mr s none).1,
        (deductLoop_echo oracle order mr 0 mr s none).2⟩
      rcases deductLoop_spec oracle order mr 0 mr s none with
        ⟨hst, -⟩ | ⟨hst, -⟩
      · exact Or.inl hst
      · exact Or.inr hst

/-- C8: non-negativity of balances is an invariant: it holds of the
seeded state, every `deduct_balance` call (transient or not, any customer
id and any amount, including insufficient-funds rejections) takes a state
in which all balances are non-negative to another such state, and
`reset_balances` restores the non-negative seeded state; `get_balance`
does not touch the state at all. -/
theorem balancesStayNonnegative :
    balancesNonneg initialBalances ∧
    (∀ (t : Bool) (s : List (Int × ℚ)) (cid : Int) (a : ℚ),
      balancesNonneg s → balancesNonneg (deduct_balance t s cid a).2) ∧
    balancesNonneg reset_balances := by
  have hinit : balancesNonneg initialBalances := by
    apply balancesNonneg_of_values
    intro p hp
    simp [initialBalances] at hp
    rcases hp with h | h | h | h | h <;> rw [h] <;> norm_num
  refine ⟨hinit, ?_, hinit⟩
  intro t s cid a hs
  match t with
  | true => exact hs
  | false =>
    by_cases hlt : get_balance s cid < a
    · rw [((deductBalanceCheckAndDeduct.1 s cid a).1 hlt)]
      exact hs
    · rw [((deductBalanceCheckAndDeduct.1 s cid a).2 hlt).1]
      intro c
      show 0 ≤ dictGet (dictSet s cid (get_balance s cid - a)) c
      rw [dictGet_dictSet]
      by_cases hc : c = cid
      · rw [if_pos hc]
        have := not_lt.mp hlt
        linarith
      · rw [if_neg hc]
        exact hs c

/-- Witness for C8: the state after deducting 50 from customer 1 (and
after a transient failure, and after an insufficient-funds rejection)
still has all balances non-negative. -/
theorem balancesStayNonnegative_witness :
    balancesNonneg (deduct_balance false initialBalances 1 50).2 ∧
    balancesNonneg (deduct_balance true initialBalances 2 75).2 ∧
    balancesNonneg (deduct_balance false initialBalances 5 200).2 :=
  ⟨balancesStayNonnegative.2.1 false initialBalances 1 50
      balancesStayNonnegative.1,
    balancesStayNonnegative.2.1 true initialBalances 2 75
      balancesStayNonnegative.1,
    balancesStayNonnegative.2.1 false initialBalances 5 200
      balancesStayNonnegative.1⟩

/-- C1 (documents the divergence): on the spec's own example batch
`[(id=1, prio=false), (id=2, prio=true), (id=3, prio=false)]` (valid
orders, no transient failures), `create_orders_batch` returns the
priority sequence `[false, false, true]` with ids `[1, 3, 2]` — the
non-priority outcomes come first, because `sorted(results, key=lambda x:
x.priority)` sorts ascending and `False < True`. The claim (and the
function's own docstring and test) demand `[true, false, false]` with the
priority order first. -/
theorem batchSortPutsNonPriorityFirst :
    ((create_orders_batch (fun _ _ => false) 3
        [⟨1, 1, 10, false⟩, ⟨2, 1, 10, true⟩, ⟨3, 1, 10, false⟩]
        ⟨initialBalances, ⟨0, 0⟩⟩).1.map (fun r => r.priority) =
      [false, false, true]) ∧
    ((create_orders_batch (fun _ _ => false) 3
        [⟨1, 1, 10, false⟩, ⟨2, 1, 10, true⟩, ⟨3, 1, 10, false⟩]
        ⟨initialBalances, ⟨0, 0⟩⟩).1.map (fun r => r.id) =
      [1, 3, 2]) := by
  constructor <;>
    norm_num [create_orders_batch, processAll, _process_single_order,
      deductLoop, deduct_balance, get_balance, dictGet, dictSet,
      initialBalances, List.lookup, sortedByPriorityKey, List.filter,
      update_daily_stats]

/-- C2 (documents the divergence): two concurrent
`_update_daily_stats(10)` calls, interleaved so that both read the shared
stats before either writes (the `time.sleep(0.001)` between the reads and
the writes makes exactly this interleaving easy to hit), both complete
yet leave `orderCount = 1` and `totalRevenue = 10`: one update is lost,
while the claim demands `orderCount = 2` and `totalRevenue = 20` for
every interleaving. The serial schedule and the sequential function give
the correct `(20, 2)`. -/
theorem statsUpdateLosesConcurrentUpdate :
    allDone (raceRun [0, 1, 0, 1]
      ⟨⟨0, 0⟩, [freshThread 10, freshThread 10]⟩) = true ∧
    (raceRun [0, 1, 0, 1]
      ⟨⟨0, 0⟩, [freshThread 10, freshThread 10]⟩).stats = ⟨10, 1⟩ ∧
    (raceRun [0, 0, 1, 1]
      ⟨⟨0, 0⟩, [freshThread 10, freshThread 10]⟩).stats = ⟨20, 2⟩ ∧
    update_daily_stats (update_daily_stats ⟨0, 0⟩ 10) 10 = ⟨20, 2⟩ := by
  refine ⟨?_, ?_, ?_, ?_⟩ <;>
    norm_num [raceRun, raceStep, freshThread, allDone, List.foldl,
      update_daily_stats]
